import Mathlib

/-!
Shallow embedding of the core logic of the watermark desktop application:
nine-grid watermark positioning, text-watermark rendering options and alpha
computation, output naming rules, resize computation, input discovery, and
the export pipeline with its overwrite-protection check.

Conventions of the embedding:
- Python integers are `Int`; Python floor division is `Int.fdiv`; the Python
  truncating conversion of a nonnegative quotient is `Int.tdiv`.
- Arithmetic that Python performs in binary floating point is embedded in
  exact arithmetic; on the concrete inputs used below the two agree.
- Filesystem paths are sequences of components; filesystem state and external
  library effects (image decoding, font metrics, rasterization) are explicit
  parameters, since the repository delegates them to external libraries.
-/

/-- ASCII lowercasing of one character, the behavior of the Python method
used by the code on the ASCII format tokens and file extensions it handles. -/
def asciiLower (c : Char) : Char :=
  if 'A' ≤ c ∧ c ≤ 'Z' then Char.ofNat (c.toNat + 32) else c

/-- Lowercasing of a string, as the code applies it to format tokens and
file extensions (all ASCII at every call site). -/
def pyLower (s : String) : String := String.mk (s.data.map asciiLower)

/-- A filesystem path, as its sequence of components. -/
abbrev FsPath := List String

/-- Final component of a path (the file name). -/
def pathName (p : FsPath) : String := p.getLast?.getD ""

/-- Number of characters after the last dot of a file name. -/
def afterLastDot (cs : List Char) : Nat :=
  (cs.reverse.takeWhile (fun c => c ≠ '.')).length

/-- Whether a file name has a nonempty dot-suffix in the sense of pathlib:
there is a dot, it is not the leading character, and it is not the final
character. -/
def hasDotSuffix (cs : List Char) : Prop :=
  '.' ∈ cs ∧ 0 < afterLastDot cs ∧ afterLastDot cs + 1 < cs.length

instance (cs : List Char) : Decidable (hasDotSuffix cs) := by
  unfold hasDotSuffix; infer_instance

/-- The dot-suffix of a file name, pathlib semantics: the last dot and what
follows it, or the empty string when no suffix exists. -/
def pySuffix (name : String) : String :=
  let cs := name.data
  if hasDotSuffix cs then
    String.mk (cs.drop (cs.length - (afterLastDot cs + 1)))
  else ""

/-- The stem of a file name, pathlib semantics: the name with its dot-suffix
removed. -/
def pyStem (name : String) : String :=
  let cs := name.data
  if hasDotSuffix cs then
    String.mk (cs.take (cs.length - (afterLastDot cs + 1)))
  else name

/-- Output naming modes of the export pipeline. -/
inductive NamingMode
  | KEEP
  | PREFIX
  | SUFFIX
  deriving DecidableEq

/-- Resize modes of the export pipeline. -/
inductive ResizeMode
  | NONE
  | BY_WIDTH
  | BY_HEIGHT
  | BY_PERCENT
  deriving DecidableEq

/-- Nine-grid preset layout for watermark placement. -/
inductive GridPosition
  | TOP_LEFT
  | TOP_CENTER
  | TOP_RIGHT
  | CENTER_LEFT
  | CENTER
  | CENTER_RIGHT
  | BOTTOM_LEFT
  | BOTTOM_CENTER
  | BOTTOM_RIGHT
  deriving DecidableEq

/-- Top-left coordinate for placing a box within an image based on the
nine-grid layout, followed by the clamping post-step of the code. -/
def compute_position (img_w img_h box_w box_h : Int) (position : GridPosition)
    (margin : Int) : Int × Int :=
  let p : Int × Int :=
    match position with
    | GridPosition.TOP_LEFT => (margin, margin)
    | GridPosition.TOP_CENTER => (Int.fdiv (img_w - box_w) 2, margin)
    | GridPosition.TOP_RIGHT => (img_w - box_w - margin, margin)
    | GridPosition.CENTER_LEFT => (margin, Int.fdiv (img_h - box_h) 2)
    | GridPosition.CENTER =>
        (Int.fdiv (img_w - box_w) 2, Int.fdiv (img_h - box_h) 2)
    | GridPosition.CENTER_RIGHT =>
        (img_w - box_w - margin, Int.fdiv (img_h - box_h) 2)
    | GridPosition.BOTTOM_LEFT => (margin, img_h - box_h - margin)
    | GridPosition.BOTTOM_CENTER =>
        (Int.fdiv (img_w - box_w) 2, img_h - box_h - margin)
    | GridPosition.BOTTOM_RIGHT =>
        (img_w - box_w - margin, img_h - box_h - margin)
  (max 0 (min p.1 (img_w - box_w)), max 0 (min p.2 (img_h - box_h)))

/-- Stem transformation of the naming rules: keep, prepend, or append.
The two string fields are named pfx and sfx because the Python parameter
names are reserved words here. -/
def applyNamingMode (mode : NamingMode) (pfx sfx : String) (stem : String) :
    String :=
  match mode with
  | NamingMode.KEEP => stem
  | NamingMode.PREFIX => pfx ++ stem
  | NamingMode.SUFFIX => stem ++ sfx

/-- Construct the output file path from the source path, output directory,
naming mode and logical output format. -/
def build_output_name (src_file : FsPath) (out_dir : FsPath)
    (mode : NamingMode) (pfx sfx : String) (out_ext : String) : FsPath :=
  let stem := applyNamingMode mode pfx sfx (pyStem (pathName src_file))
  let ext := if pyLower out_ext = "jpeg" then ".jpg" else ".png"
  out_dir ++ [stem ++ ext]

/-- RGBA pixel value. -/
structure RGBA where
  r : Int
  g : Int
  b : Int
  a : Int
  deriving DecidableEq

/-- An in-memory image of the external imaging library, as observed by the
code: a color mode tag, pixel dimensions, and pixel contents. -/
structure PILImage where
  mode : String
  width : Int
  height : Int
  px : Int → Int → RGBA

/-- Copy of an image: a new image with identical mode, size and pixels. -/
def PILImage.copy (img : PILImage) : PILImage :=
  ⟨img.mode, img.width, img.height, img.px⟩

/-- Color-mode conversion never changes pixel dimensions. The channel
reinterpretation performed by the library is not observed by any claim and
is not modelled beyond the mode tag. -/
def PILImage.convert (img : PILImage) (mode : String) : PILImage :=
  ⟨mode, img.width, img.height, img.px⟩

/-- Construction of a new image of a given mode, size and constant fill. -/
def pilNew (mode : String) (w h : Int) (color : RGBA) : PILImage :=
  ⟨mode, w, h, fun _ _ => color⟩

/-- Alpha-over blending of a source pixel onto a destination pixel, the
documented semantics of the library compositor in exact integer form; no
claim observes these channel values. -/
def alphaOver (dst src : RGBA) : RGBA :=
  let outA := src.a + Int.tdiv (dst.a * (255 - src.a)) 255
  ⟨Int.tdiv (src.r * src.a + Int.tdiv (dst.r * dst.a * (255 - src.a)) 255) 255,
   Int.tdiv (src.g * src.a + Int.tdiv (dst.g * dst.a * (255 - src.a)) 255) 255,
   Int.tdiv (src.b * src.a + Int.tdiv (dst.b * dst.a * (255 - src.a)) 255) 255,
   outA⟩

/-- Alpha compositing of an overlay over a base image of the same size; the
result keeps the dimensions of the base image. -/
def alpha_composite (base overlay : PILImage) : PILImage :=
  ⟨"RGBA", base.width, base.height,
   fun i j => alphaOver (base.px i j) (overlay.px i j)⟩

/-- Options to control text watermark rendering. -/
structure TextWatermarkOptions where
  text : String
  font_size : Int
  color : Int × Int × Int
  opacity : Int
  position : GridPosition
  margin : Int

/-- Clamp an opacity value between 0 and 100. -/
def _clamp_opacity (opacity : Int) : Int := max 0 (min 100 opacity)

/-- The RGBA fill passed to the text draw call: the configured color with
the alpha channel computed from the clamped opacity. The truncating integer
conversion of the code agrees with exact truncated division on the clamped
range 0..100. -/
def watermark_fill (options : TextWatermarkOptions) : RGBA :=
  ⟨options.color.1, options.color.2.1, options.color.2.2,
   Int.tdiv (255 * _clamp_opacity options.opacity) 100⟩

/-- Drawing text on an image writes pixels in place: the size and mode of
the image are unchanged, and the new pixel contents are produced by an
external rasterizer from the coordinate, the text, the fill, and the old
pixels. -/
def pilDrawText
    (raster : Int × Int → String → RGBA → (Int → Int → RGBA) → Int → Int → RGBA)
    (img : PILImage) (xy : Int × Int) (s : String) (fill : RGBA) : PILImage :=
  { img with px := raster xy s fill img.px }

/-- Render a text watermark onto a copy of the provided image. The external
font-metric measurement (bounding box width and height of the text at the
requested font size) and the external rasterizer are explicit parameters. -/
def apply_text_watermark
    (measure : String → Int → Int × Int)
    (raster : Int × Int → String → RGBA → (Int → Int → RGBA) → Int → Int → RGBA)
    (image : PILImage) (options : TextWatermarkOptions) : PILImage :=
  if options.opacity ≤ 0 ∨ options.text = "" then image.copy
  else
    let base := image.convert "RGBA"
    let overlay := pilNew "RGBA" base.width base.height ⟨0, 0, 0, 0⟩
    let tsize := measure options.text options.font_size
    let xy := compute_position base.width base.height tsize.1 tsize.2
      options.position options.margin
    let overlay2 := pilDrawText raster overlay xy options.text
      (watermark_fill options)
    let result := alpha_composite base overlay2
    result.convert image.mode

/-- Export options controlling the output pipeline. The two naming strings
are named pfx and sfx because the Python field names are reserved words
here. -/
structure ExportOptions where
  output_dir : FsPath
  output_format : String
  naming_mode : NamingMode
  pfx : String
  sfx : String
  jpeg_quality : Int
  resize_mode : ResizeMode
  resize_value : Option Int
  keep_aspect_ratio : Bool
  allow_overwrite_source : Bool

/-- Truncation of a rational toward zero, the Python integer conversion. -/
def ratTrunc (q : ℚ) : Int := if 0 ≤ q then ⌊q⌋ else -⌊-q⌋

/-- Target size computation of the resize policy, in exact arithmetic. -/
def _compute_new_size (img : PILImage) (options : ExportOptions) : Int × Int :=
  let w := img.width
  let h := img.height
  match options.resize_mode, options.resize_value with
  | ResizeMode.NONE, _ => (w, h)
  | _, none => (w, h)
  | ResizeMode.BY_WIDTH, some val =>
      let new_w := val
      let new_h :=
        if options.keep_aspect_ratio then max 1 (Int.tdiv (h * new_w) w) else h
      (max 1 new_w, max 1 new_h)
  | ResizeMode.BY_HEIGHT, some val =>
      let new_h := val
      let new_w :=
        if options.keep_aspect_ratio then max 1 (Int.tdiv (w * new_h) h) else w
      (max 1 new_w, max 1 new_h)
  | ResizeMode.BY_PERCENT, some val =>
      let scale := max (1 / 100 : ℚ) ((val : ℚ) / 100)
      (max 1 (ratTrunc ((w : ℚ) * scale)), max 1 (ratTrunc ((h : ℚ) * scale)))

/-- Supported input extensions, matched against the lowercased dot-suffix. -/
def SUPPORTED_INPUT_EXTS : List String :=
  [".jpg", ".jpeg", ".png", ".bmp", ".tif", ".tiff"]

/-- Whether a file has a supported image extension. -/
def is_supported_input (path : FsPath) : Bool :=
  SUPPORTED_INPUT_EXTS.contains (pyLower (pySuffix (pathName path)))

/-- Strict lexicographic comparison of two character sequences by code
point, the string comparison underlying path ordering. -/
def strLtB : List Char → List Char → Bool
  | [], [] => false
  | [], _ :: _ => true
  | _ :: _, [] => false
  | a :: xs, b :: ys =>
      if a < b then true else if b < a then false else strLtB xs ys

/-- Ascending path order: lexicographic on the component sequence, with
components compared as strings. -/
def pathLeB : FsPath → FsPath → Bool
  | [], _ => true
  | _ :: _, [] => false
  | s :: xs, t :: ys =>
      if strLtB s.data t.data then true
      else if strLtB t.data s.data then false
      else pathLeB xs ys

/-- The path order as a relation. -/
def pathLe (a b : FsPath) : Prop := pathLeB a b = true

instance : DecidableRel pathLe := fun a b =>
  inferInstanceAs (Decidable (pathLeB a b = true))

/-- Filesystem state visible to input discovery: the set of directories, the
set of regular files in enumeration order, the path resolution map (user
expansion plus symlink and relative resolution), and the current working
directory. -/
structure DiscoverFS where
  dirs : List FsPath
  files : List FsPath
  resolve : FsPath → FsPath
  cwd : FsPath

/-- Recursive enumeration of the supported image files strictly under a
folder, in filesystem enumeration order. -/
def _iter_folder_images (fs : DiscoverFS) (folder : FsPath) : List FsPath :=
  fs.files.filter (fun p =>
    folder.isPrefixOf p && !(p == folder) && is_supported_input p)

/-- One candidate file added to the accumulated unique list, guarded by the
seen set. -/
def addFile (st : List FsPath × List FsPath) (f : FsPath) :
    List FsPath × List FsPath :=
  if f ∈ st.2 then st else (st.1 ++ [f], f :: st.2)

/-- Accumulator of the discovery loop: unique files in first-seen order, the
seen set, and the recorded roots in append order. -/
structure DiscoverState where
  unique : List FsPath
  seen : List FsPath
  roots : List FsPath

/-- One iteration of the discovery loop over one raw input path: resolve it,
then branch on directory, regular file, or nonexistent (silently skipped). -/
def discoverStep (fs : DiscoverFS) (st : DiscoverState) (raw : FsPath) :
    DiscoverState :=
  let p := fs.resolve raw
  if p ∈ fs.dirs then
    let uf := (_iter_folder_images fs p).foldl addFile (st.unique, st.seen)
    ⟨uf.1, uf.2, st.roots ++ [p]⟩
  else if p ∈ fs.files then
    if is_supported_input p then
      let uf := addFile (st.unique, st.seen) p
      ⟨uf.1, uf.2, st.roots ++ [p.dropLast]⟩
    else ⟨st.unique, st.seen, st.roots ++ [p.dropLast]⟩
  else st

/-- Longest common prefix of two component sequences. -/
def commonPrefix2 : FsPath → FsPath → FsPath
  | x :: xs, y :: ys => if x = y then x :: commonPrefix2 xs ys else []
  | _, _ => []

/-- Longest common ancestor of a nonempty list of paths, the semantics of
the standard library common-path helper on resolved absolute paths. -/
def commonpath (ps : List FsPath) : FsPath :=
  match ps with
  | [] => []
  | r :: rs => rs.foldl commonPrefix2 r

/-- Discovered input files and their common root directory. -/
structure ImportResult where
  files : List FsPath
  common_root : FsPath

/-- Discover image inputs given file or folder paths: accumulate unique
supported files and roots, sort the files, and compute the common root or
fall back to the current working directory. -/
def discover_inputs (fs : DiscoverFS) (paths : List FsPath) : ImportResult :=
  let st := paths.foldl (discoverStep fs) ⟨[], [], []⟩
  let files := st.unique.insertionSort pathLe
  let common_root := if st.roots = [] then fs.cwd else commonpath st.roots
  ⟨files, common_root⟩

/-- Observable filesystem effects of the export pipeline, in order. -/
inductive ExportEvent
  | mkdirOut
  | openImage (p : FsPath)
  | mkdirDest (p : FsPath)
  | saveImage (p : FsPath)
  deriving DecidableEq

/-- Whether an event opens, processes or writes an image file. -/
def ExportEvent.touchesImage : ExportEvent → Bool
  | ExportEvent.openImage _ => true
  | ExportEvent.saveImage _ => true
  | _ => false

/-- Environment of the export pipeline: path resolution and the image
obtained by opening each source path. -/
structure ExportEnv where
  resolve : FsPath → FsPath
  imageOf : FsPath → PILImage

/-- Creation of the output directory followed by the overwrite-protection
check: unless overwriting is explicitly allowed, the resolved output
directory must differ from every resolved source directory. -/
def _ensure_output_dir (env : ExportEnv) (options : ExportOptions)
    (source_dirs : List FsPath) : List ExportEvent × Except String Unit :=
  ([ExportEvent.mkdirOut],
   if options.allow_overwrite_source then Except.ok ()
   else
     match source_dirs.find?
         (fun src => env.resolve options.output_dir == env.resolve src) with
     | some _ =>
         Except.error "Output directory must differ from source directory."
     | none => Except.ok ())

/-- Per-file export step: build the destination name, open the source image,
compute the target size, create the destination parent directory, and save. -/
def exportOne (env : ExportEnv) (options : ExportOptions) (src : FsPath) :
    List ExportEvent × FsPath :=
  let dest := build_output_name src options.output_dir options.naming_mode
    options.pfx options.sfx options.output_format
  let img := env.imageOf src
  let _new_size := _compute_new_size img options
  ([ExportEvent.openImage src, ExportEvent.mkdirDest dest.dropLast,
    ExportEvent.saveImage dest], dest)

/-- Export the given images to the output directory: short-circuit on an
empty list, run the output-directory check against the sorted set of source
parent directories, then process each file in input order. The event list
records the filesystem effects in order; the second component is the
returned list of destinations or the raised configuration error. -/
def export_images (env : ExportEnv) (src_files : List FsPath)
    (options : ExportOptions) :
    List ExportEvent × Except String (List FsPath) :=
  let files := src_files
  if files = [] then ([], Except.ok [])
  else
    let source_dirs :=
      ((files.map (fun p => p.dropLast)).dedup).insertionSort pathLe
    let ed := _ensure_output_dir env options source_dirs
    match ed.2 with
    | Except.error e => (ed.1, Except.error e)
    | Except.ok _ =>
        let results := files.map (exportOne env options)
        (ed.1 ++ (results.map Prod.fst).flatten, Except.ok (results.map Prod.snd))

/-- The alpha formula the specification states, modelled from the spec
words: round to the nearest integer of 255 times the clamped opacity over
100. Kept separate from the code-derived definitions so the two can be
compared. -/
def alpha_round_claim (opacity : Int) : Int :=
  round ((255 * (_clamp_opacity opacity : ℚ)) / 100)

/-- A concrete 4 by 3 image used by concrete instances below. -/
def demoImage : PILImage := ⟨"RGB", 4, 3, fun _ _ => ⟨10, 20, 30, 255⟩⟩

/-- A degenerate external text measurement for concrete instances. -/
def demoMeasure : String → Int → Int × Int := fun _ _ => (2, 1)

/-- A degenerate external rasterizer for concrete instances: it paints
every pixel with the fill. -/
def demoRaster :
    Int × Int → String → RGBA → (Int → Int → RGBA) → Int → Int → RGBA :=
  fun _ _ fill _ _ _ => fill

/-- Watermark options with zero opacity, a concrete no-op input. -/
def demoNoopOptions : TextWatermarkOptions :=
  ⟨"wm", 24, (255, 255, 255), 0, GridPosition.BOTTOM_RIGHT, 20⟩

/-- Watermark options with opacity 50, the alpha rounding counterexample. -/
def demoHalfOptions : TextWatermarkOptions :=
  ⟨"wm", 24, (255, 255, 255), 50, GridPosition.BOTTOM_RIGHT, 20⟩

/-- A concrete 2 wide, 3 high image, the resize rounding counterexample. -/
def demoTallImage : PILImage := ⟨"RGB", 2, 3, fun _ _ => ⟨0, 0, 0, 255⟩⟩

/-- Export options resizing to width 1 keeping aspect ratio. -/
def demoByWidth1Options : ExportOptions :=
  ⟨["out"], "png", NamingMode.KEEP, "", "", 90, ResizeMode.BY_WIDTH, some 1,
   true, false⟩

/-- A concrete 200 by 50 image, the resize example of the specification. -/
def demoWideImage : PILImage := ⟨"RGB", 200, 50, fun _ _ => ⟨0, 0, 0, 255⟩⟩

/-- Export options resizing to width 100 keeping aspect ratio. -/
def demoByWidth100Options : ExportOptions :=
  ⟨["out"], "png", NamingMode.KEEP, "", "", 90, ResizeMode.BY_WIDTH, some 100,
   true, false⟩

/-- A concrete export environment: identity resolution, constant image. -/
def demoExportEnv : ExportEnv := ⟨id, fun _ => demoImage⟩

/-- Export options whose output directory is the source directory of the
concrete file below, with overwriting not allowed. -/
def demoCollidingOptions : ExportOptions :=
  ⟨["pics"], "png", NamingMode.KEEP, "", "", 90, ResizeMode.NONE, none,
   true, false⟩

example : pyStem "photo.png" = "photo" := by decide
example : pySuffix "photo.png" = ".png" := by decide
example : pyStem ".bashrc" = ".bashrc" := by decide
example : pySuffix "archive.tar.gz" = ".gz" := by decide
example : pyStem "photo." = "photo." := by decide
example :
    build_output_name ["pics", "photo.png"] ["out"] NamingMode.KEEP "" "" "jpeg" =
      ["out", "photo.jpg"] := by decide
example :
    compute_position 100 40 8 6 GridPosition.BOTTOM_RIGHT 5 = (87, 29) := by decide
example :
    compute_position 10 10 20 20 GridPosition.CENTER 0 = (0, 0) := by decide

theorem strLtB_irrefl (xs : List Char) : strLtB xs xs = false := by
  induction xs with
  | nil => rfl
  | cons a xs ih => simp [strLtB, ih]

theorem strLtB_connex (xs : List Char) : ∀ ys,
    strLtB xs ys = false → strLtB ys xs = false → xs = ys := by
  induction xs with
  | nil =>
    intro ys h1 _
    cases ys with
    | nil => rfl
    | cons b ys => simp [strLtB] at h1
  | cons a xs ih =>
    intro ys h1 h2
    cases ys with
    | nil => simp [strLtB] at h2
    | cons b ys =>
      rcases lt_trichotomy a b with hab | hab | hab
      · simp [strLtB, hab] at h1
      · subst hab
        simp only [strLtB, lt_self_iff_false, if_false] at h1 h2
        rw [ih ys h1 h2]
      · simp [strLtB, hab, asymm hab] at h2

theorem strLtB_trans (xs : List Char) : ∀ ys zs,
    strLtB xs ys = true → strLtB ys zs = true → strLtB xs zs = true := by
  induction xs with
  | nil =>
    intro ys zs h1 h2
    cases ys with
    | nil => simp [strLtB] at h1
    | cons b ys =>
      cases zs with
      | nil => simp [strLtB] at h2
      | cons c zs => simp [strLtB]
  | cons a xs ih =>
    intro ys zs h1 h2
    cases ys with
    | nil => simp [strLtB] at h1
    | cons b ys =>
      cases zs with
      | nil => simp [strLtB] at h2
      | cons c zs =>
        rcases lt_trichotomy a b with hab | hab | hab
        · rcases lt_trichotomy b c with hbc | hbc | hbc
          · simp [strLtB, lt_trans hab hbc]
          · subst hbc; simp [strLtB, hab]
          · simp [strLtB, asymm hbc, hbc] at h2
        · subst hab
          simp only [strLtB, lt_self_iff_false, if_false] at h1
          rcases lt_trichotomy a c with hac | hac | hac
          · simp [strLtB, hac]
          · subst hac
            simp only [strLtB, lt_self_iff_false, if_false] at h2 ⊢
            exact ih ys zs h1 h2
          · simp [strLtB, asymm hac, hac] at h2
        · simp [strLtB, asymm hab, hab] at h1

theorem pathLeB_total (a : FsPath) : ∀ b, pathLe a b ∨ pathLe b a := by
  induction a with
  | nil => intro b; left; cases b <;> rfl
  | cons s xs ih =>
    intro b
    cases b with
    | nil => right; rfl
    | cons t ys =>
      cases hst : strLtB s.data t.data with
      | true => left; simp [pathLe, pathLeB, hst]
      | false =>
        cases hts : strLtB t.data s.data with
        | true => right; simp [pathLe, pathLeB, hts]
        | false =>
          rcases ih ys with h | h
          · left; simpa [pathLe, pathLeB, hst, hts] using h
          · right; simpa [pathLe, pathLeB, hst, hts] using h

theorem pathLeB_trans (a : FsPath) : ∀ b c,
    pathLe a b → pathLe b c → pathLe a c := by
  induction a with
  | nil => intro b c _ _; cases c <;> rfl
  | cons s xs ih =>
    intro b c h1 h2
    cases b with
    | nil => simp [pathLe, pathLeB] at h1
    | cons t ys =>
      cases c with
      | nil => simp [pathLe, pathLeB] at h2
      | cons u zs =>
        cases hst : strLtB s.data t.data with
        | true =>
          cases htu : strLtB t.data u.data with
          | true =>
            simp [pathLe, pathLeB, strLtB_trans s.data t.data u.data hst htu]
          | false =>
            cases hut : strLtB u.data t.data with
            | true => simp [pathLe, pathLeB, htu, hut] at h2
            | false =>
              have hdata : t.data = u.data := strLtB_connex t.data u.data htu hut
              simp [pathLe, pathLeB, ← hdata, hst]
        | false =>
          cases hts : strLtB t.data s.data with
          | true => simp [pathLe, pathLeB, hst, hts] at h1
          | false =>
            have hdata : s.data = t.data := strLtB_connex s.data t.data hst hts
            simp only [pathLe, pathLeB, hst, hts, if_false] at h1
            cases htu : strLtB t.data u.data with
            | true => simp [pathLe, pathLeB, hdata, htu]
            | false =>
              cases hut : strLtB u.data t.data with
              | true => simp [pathLe, pathLeB, htu, hut] at h2
              | false =>
                have hdata2 : t.data = u.data := strLtB_connex t.data u.data htu hut
                simp only [pathLe, pathLeB, htu, hut, if_false] at h2
                simp only [pathLe, pathLeB, hdata, hdata2, strLtB_irrefl, if_false]
                exact ih ys zs h1 h2

/-- C2: for every image size, box size with the box no larger than the
image on each axis, every grid position and every nonnegative margin, the
computed coordinate lies within 0 and the image dimension minus the box
dimension on both axes. -/
theorem compute_position_within_bounds
    (img_w img_h box_w box_h : Int) (position : GridPosition) (margin : Int)
    (hw : box_w ≤ img_w) (hh : box_h ≤ img_h) (hm : 0 ≤ margin) :
    0 ≤ (compute_position img_w img_h box_w box_h position margin).1 ∧
      (compute_position img_w img_h box_w box_h position margin).1 ≤
        img_w - box_w ∧
      0 ≤ (compute_position img_w img_h box_w box_h position margin).2 ∧
      (compute_position img_w img_h box_w box_h position margin).2 ≤
        img_h - box_h := by
  have hw2 : (0 : Int) ≤ img_w - box_w := by omega
  have hh2 : (0 : Int) ≤ img_h - box_h := by omega
  unfold compute_position
  exact ⟨le_max_left 0 _, max_le hw2 (min_le_right _ _),
    le_max_left 0 _, max_le hh2 (min_le_right _ _)⟩

/-- C2 witness at a concrete input. -/
theorem compute_position_within_bounds_witness :
    ((8 : Int) ≤ 100 ∧ (6 : Int) ≤ 40 ∧ (0 : Int) ≤ 5) ∧
      (0 ≤ (compute_position 100 40 8 6 GridPosition.BOTTOM_RIGHT 5).1 ∧
        (compute_position 100 40 8 6 GridPosition.BOTTOM_RIGHT 5).1 ≤ 100 - 8 ∧
        0 ≤ (compute_position 100 40 8 6 GridPosition.BOTTOM_RIGHT 5).2 ∧
        (compute_position 100 40 8 6 GridPosition.BOTTOM_RIGHT 5).2 ≤ 40 - 6) :=
  ⟨by decide,
   compute_position_within_bounds 100 40 8 6 GridPosition.BOTTOM_RIGHT 5
     (by decide) (by decide) (by decide)⟩

/-- C6: the CENTER position ignores the margin on both axes, and the result
is the clamped centered coordinate. -/
theorem compute_position_center_ignores_margin
    (img_w img_h box_w box_h m1 m2 : Int) :
    compute_position img_w img_h box_w box_h GridPosition.CENTER m1 =
        compute_position img_w img_h box_w box_h GridPosition.CENTER m2 ∧
      compute_position img_w img_h box_w box_h GridPosition.CENTER m1 =
        (max 0 (min (Int.fdiv (img_w - box_w) 2) (img_w - box_w)),
         max 0 (min (Int.fdiv (img_h - box_h) 2) (img_h - box_h))) :=
  ⟨rfl, rfl⟩

/-- C7: the destination stem is the source stem for KEEP, the prepended
stem for PREFIX, the appended stem for SUFFIX; the extension is forced by
the output format, jpeg giving .jpg and png giving .png; the result is the
output directory joined with stem plus extension; and KEEP with jpeg on
photo.png yields photo.jpg inside the output directory. -/
theorem build_output_name_modes
    (src_file out_dir : FsPath) (pfx sfx : String) :
    build_output_name src_file out_dir NamingMode.KEEP pfx sfx "jpeg" =
        out_dir ++ [pyStem (pathName src_file) ++ ".jpg"] ∧
      build_output_name src_file out_dir NamingMode.PREFIX pfx sfx "jpeg" =
        out_dir ++ [(pfx ++ pyStem (pathName src_file)) ++ ".jpg"] ∧
      build_output_name src_file out_dir NamingMode.SUFFIX pfx sfx "jpeg" =
        out_dir ++ [(pyStem (pathName src_file) ++ sfx) ++ ".jpg"] ∧
      build_output_name src_file out_dir NamingMode.KEEP pfx sfx "png" =
        out_dir ++ [pyStem (pathName src_file) ++ ".png"] ∧
      build_output_name ["pics", "photo.png"] out_dir NamingMode.KEEP pfx sfx
          "jpeg" =
        out_dir ++ ["photo.jpg"] :=
  ⟨rfl, rfl, rfl, rfl, rfl⟩

/-- C10: any output format whose lowercase form is not jpeg falls back to
the .png extension, and the comparison is case-insensitive, so JPEG in
capitals yields .jpg. -/
theorem build_output_name_ext_fallback
    (src_file out_dir : FsPath) (mode : NamingMode) (pfx sfx out_ext : String)
    (h : pyLower out_ext ≠ "jpeg") :
    build_output_name src_file out_dir mode pfx sfx out_ext =
        out_dir ++
          [applyNamingMode mode pfx sfx (pyStem (pathName src_file)) ++
            ".png"] ∧
      build_output_name src_file out_dir mode pfx sfx "JPEG" =
        out_dir ++
          [applyNamingMode mode pfx sfx (pyStem (pathName src_file)) ++
            ".jpg"] := by
  constructor
  · unfold build_output_name
    rw [if_neg h]
  · rfl

/-- C10 witness at a concrete input. -/
theorem build_output_name_ext_fallback_witness :
    pyLower "gif" ≠ "jpeg" ∧
      (build_output_name ["pics", "photo.png"] ["out"] NamingMode.KEEP "" ""
          "gif" =
        ["out"] ++
          [applyNamingMode NamingMode.KEEP "" ""
              (pyStem (pathName ["pics", "photo.png"])) ++ ".png"] ∧
      build_output_name ["pics", "photo.png"] ["out"] NamingMode.KEEP "" ""
          "JPEG" =
        ["out"] ++
          [applyNamingMode NamingMode.KEEP "" ""
              (pyStem (pathName ["pics", "photo.png"])) ++ ".jpg"]) :=
  ⟨by decide,
   build_output_name_ext_fallback ["pics", "photo.png"] ["out"]
     NamingMode.KEEP "" "" "gif" (by decide)⟩

/-- C5: with nonpositive opacity or empty text, the renderer returns a copy
of the input image that equals it; the renderer is a pure function of the
input, which is never mutated. -/
theorem apply_text_watermark_noop
    (measure : String → Int → Int × Int)
    (raster : Int × Int → String → RGBA → (Int → Int → RGBA) → Int → Int → RGBA)
    (image : PILImage) (options : TextWatermarkOptions)
    (h : options.opacity ≤ 0 ∨ options.text = "") :
    apply_text_watermark measure raster image options = PILImage.copy image ∧
      PILImage.copy image = image := by
  constructor
  · unfold apply_text_watermark
    rw [if_pos h]
  · rfl

/-- C5 witness at a concrete zero-opacity input. -/
theorem apply_text_watermark_noop_witness :
    (demoNoopOptions.opacity ≤ 0 ∨ demoNoopOptions.text = "") ∧
      (apply_text_watermark demoMeasure demoRaster demoImage demoNoopOptions =
          PILImage.copy demoImage ∧
        PILImage.copy demoImage = demoImage) :=
  ⟨Or.inl (by decide),
   apply_text_watermark_noop demoMeasure demoRaster demoImage demoNoopOptions
     (Or.inl (by decide))⟩

/-- C9: the renderer never changes the image dimensions, in the no-op
branch and in the compositing branch alike, for every measurement and
rasterization behavior of the external library. -/
theorem apply_text_watermark_preserves_size
    (measure : String → Int → Int × Int)
    (raster : Int × Int → String → RGBA → (Int → Int → RGBA) → Int → Int → RGBA)
    (image : PILImage) (options : TextWatermarkOptions) :
    (apply_text_watermark measure raster image options).width = image.width ∧
      (apply_text_watermark measure raster image options).height =
        image.height := by
  unfold apply_text_watermark
  split
  · exact ⟨rfl, rfl⟩
  · exact ⟨rfl, rfl⟩

/-- C3 counterexample: at opacity 50 the code draws alpha 127, while the
round-to-nearest formula of the claim gives 128. -/
theorem watermark_alpha_not_round :
    (watermark_fill demoHalfOptions).a = 127 ∧
      alpha_round_claim demoHalfOptions.opacity = 128 ∧
      (watermark_fill demoHalfOptions).a ≠
        alpha_round_claim demoHalfOptions.opacity := by
  have h1 : (watermark_fill demoHalfOptions).a = 127 := by decide
  have h2 : alpha_round_claim demoHalfOptions.opacity = 128 := by
    show round ((255 * (_clamp_opacity 50 : ℚ)) / 100) = 128
    norm_num [_clamp_opacity, round_eq]
  exact ⟨h1, h2, by rw [h1, h2]; decide⟩

/-- C3 amended: the alpha drawn for the watermark text is the truncated
(toward zero, here equivalently floored) value of 255 times the clamped
opacity over 100: it is the unique integer a with 100 a at most 255 times
the clamped opacity, which in turn is below 100 (a + 1); the clamped
opacity lies in 0..100. -/
theorem watermark_alpha_floor (options : TextWatermarkOptions) :
    0 ≤ _clamp_opacity options.opacity ∧
      _clamp_opacity options.opacity ≤ 100 ∧
      100 * (watermark_fill options).a ≤ 255 * _clamp_opacity options.opacity ∧
      255 * _clamp_opacity options.opacity <
        100 * ((watermark_fill options).a + 1) := by
  have h0 : 0 ≤ _clamp_opacity options.opacity := le_max_left 0 _
  have h100 : _clamp_opacity options.opacity ≤ 100 :=
    max_le (by norm_num) (min_le_left _ _)
  have hq : 0 ≤ 255 * _clamp_opacity options.opacity := by positivity
  have halpha : (watermark_fill options).a =
      (255 * _clamp_opacity options.opacity) / 100 := by
    show Int.tdiv (255 * _clamp_opacity options.opacity) 100 = _
    rw [Int.tdiv_eq_ediv hq (by norm_num)]
  exact ⟨h0, h100, by rw [halpha]; omega, by rw [halpha]; omega⟩

/-- C4 counterexample: resizing a 2 by 3 image to width 1 keeping aspect
ratio yields height 1 in the code (truncation), while the round-to-nearest
formula of the claim yields height 2. -/
theorem compute_new_size_not_round :
    _compute_new_size demoTallImage demoByWidth1Options = (1, 1) ∧
      (max 1 (1 : Int),
        max 1 (round (((demoTallImage.height : ℚ) * 1) /
          (demoTallImage.width : ℚ)))) = (1, 2) ∧
      _compute_new_size demoTallImage demoByWidth1Options ≠
        (max 1 (1 : Int),
          max 1 (round (((demoTallImage.height : ℚ) * 1) /
            (demoTallImage.width : ℚ)))) := by
  have h1 : _compute_new_size demoTallImage demoByWidth1Options = (1, 1) := by
    decide
  have h2 : (max 1 (1 : Int),
      max 1 (round (((demoTallImage.height : ℚ) * 1) /
        (demoTallImage.width : ℚ)))) = (1, 2) := by
    show (max 1 (1 : Int), max 1 (round (((3 : ℚ) * 1) / (2 : ℚ)))) = (1, 2)
    norm_num [round_eq]
  refine ⟨h1, h2, ?_⟩
  rw [h1, h2]
  decide

/-- C4 amended: for BY_WIDTH with a value present and positive width, the
new size is the value and the truncated scaled height, both floored to a
minimum of 1, when keeping aspect ratio; without keeping aspect ratio the
height is the original height floored to a minimum of 1 (hence stays h for
every height of at least 1). -/
theorem compute_new_size_by_width
    (img : PILImage) (options : ExportOptions) (val : Int)
    (hw : 0 < img.width)
    (hmode : options.resize_mode = ResizeMode.BY_WIDTH)
    (hval : options.resize_value = some val) :
    _compute_new_size img options =
      (max 1 val,
       if options.keep_aspect_ratio then
         max 1 (Int.tdiv (img.height * val) img.width)
       else max 1 img.height) := by
  unfold _compute_new_size
  rw [hmode, hval]
  cases options.keep_aspect_ratio with
  | false => simp
  | true => simp

/-- C4 witness: the 200 by 50 image resized by width 100 keeping aspect
ratio yields 100 by 25, the example of the specification. -/
theorem compute_new_size_by_width_witness :
    ((0 : Int) < demoWideImage.width ∧
        demoByWidth100Options.resize_mode = ResizeMode.BY_WIDTH ∧
        demoByWidth100Options.resize_value = some 100) ∧
      _compute_new_size demoWideImage demoByWidth100Options = (100, 25) :=
  ⟨⟨by decide, rfl, rfl⟩,
   (compute_new_size_by_width demoWideImage demoByWidth100Options 100
       (by decide) rfl rfl).trans (by decide)⟩

theorem addFile_ok (uf : List FsPath × List FsPath) (f : FsPath)
    (hn : uf.1.Nodup) (hs : ∀ x ∈ uf.1, x ∈ uf.2) :
    (addFile uf f).1.Nodup ∧ ∀ x ∈ (addFile uf f).1, x ∈ (addFile uf f).2 := by
  unfold addFile
  split
  · exact ⟨hn, hs⟩
  · rename_i hf
    constructor
    · rw [List.nodup_append]
      refine ⟨hn, List.nodup_singleton f, ?_⟩
      intro x hx hxf
      rw [List.mem_singleton] at hxf
      subst hxf
      exact hf (hs x hx)
    · intro x hx
      rcases List.mem_append.mp hx with hx | hx
      · exact List.mem_cons_of_mem _ (hs x hx)
      · rw [List.mem_singleton] at hx
        subst hx
        exact List.mem_cons_self _ _

theorem foldl_addFile_ok (l : List FsPath) (uf : List FsPath × List FsPath)
    (hn : uf.1.Nodup) (hs : ∀ x ∈ uf.1, x ∈ uf.2) :
    (l.foldl addFile uf).1.Nodup ∧
      ∀ x ∈ (l.foldl addFile uf).1, x ∈ (l.foldl addFile uf).2 := by
  induction l generalizing uf with
  | nil => exact ⟨hn, hs⟩
  | cons f l ih =>
    obtain ⟨hn2, hs2⟩ := addFile_ok uf f hn hs
    exact ih _ hn2 hs2

theorem discoverStep_ok (fs : DiscoverFS) (st : DiscoverState) (raw : FsPath)
    (hn : st.unique.Nodup) (hs : ∀ x ∈ st.unique, x ∈ st.seen) :
    (discoverStep fs st raw).unique.Nodup ∧
      ∀ x ∈ (discoverStep fs st raw).unique,
        x ∈ (discoverStep fs st raw).seen := by
  unfold discoverStep
  dsimp only
  split
  · exact foldl_addFile_ok _ (st.unique, st.seen) hn hs
  · split
    · split
      · exact addFile_ok (st.unique, st.seen) _ hn hs
      · exact ⟨hn, hs⟩
    · exact ⟨hn, hs⟩

theorem discoverFold_ok (fs : DiscoverFS) (paths : List FsPath)
    (st : DiscoverState) (hn : st.unique.Nodup)
    (hs : ∀ x ∈ st.unique, x ∈ st.seen) :
    (paths.foldl (discoverStep fs) st).unique.Nodup ∧
      ∀ x ∈ (paths.foldl (discoverStep fs) st).unique,
        x ∈ (paths.foldl (discoverStep fs) st).seen := by
  induction paths generalizing st with
  | nil => exact ⟨hn, hs⟩
  | cons p ps ih =>
    obtain ⟨hn2, hs2⟩ := discoverStep_ok fs st p hn hs
    exact ih _ hn2 hs2

/-- C8: the discovered file list is sorted in ascending path order and
contains no duplicate entries. -/
theorem discover_inputs_sorted_nodup (fs : DiscoverFS) (paths : List FsPath) :
    List.Sorted pathLe (discover_inputs fs paths).files ∧
      (discover_inputs fs paths).files.Nodup := by
  constructor
  · haveI : IsTotal FsPath pathLe := ⟨pathLeB_total⟩
    haveI : IsTrans FsPath pathLe := ⟨fun a b c => pathLeB_trans a b c⟩
    exact List.sorted_insertionSort pathLe _
  · have h := discoverFold_ok fs paths ⟨[], [], []⟩ List.nodup_nil
      (by intro x hx; simp at hx)
    exact (List.perm_insertionSort pathLe _).nodup_iff.mpr h.1

theorem ensure_output_dir_error (env : ExportEnv) (options : ExportOptions)
    (source_dirs : List FsPath)
    (hover : options.allow_overwrite_source = false)
    (hfound : ∃ src ∈ source_dirs,
      env.resolve options.output_dir = env.resolve src) :
    (_ensure_output_dir env options source_dirs).1 = [ExportEvent.mkdirOut] ∧
      ∃ msg,
        (_ensure_output_dir env options source_dirs).2 = Except.error msg := by
  obtain ⟨src, hsrc, hre⟩ := hfound
  refine ⟨rfl, ?_⟩
  unfold _ensure_output_dir
  rw [hover]
  simp only [Bool.false_eq_true, if_false]
  cases hfind : source_dirs.find?
      (fun s => env.resolve options.output_dir == env.resolve s) with
  | none =>
    exfalso
    exact (List.find?_eq_none.mp hfind _ hsrc) (by simp [hre])
  | some s => exact ⟨_, rfl⟩

/-- C1: for a nonempty source list with overwriting not allowed, if the
resolved output directory equals the resolved parent directory of at least
one source file, the export raises the configuration error, and no image
file is opened, processed, or written. -/
theorem export_images_guards_source_dirs
    (env : ExportEnv) (src_files : List FsPath) (options : ExportOptions)
    (hne : src_files ≠ [])
    (hover : options.allow_overwrite_source = false)
    (hcol : ∃ p ∈ src_files,
      env.resolve options.output_dir = env.resolve p.dropLast) :
    (∃ msg, (export_images env src_files options).2 = Except.error msg) ∧
      ∀ e ∈ (export_images env src_files options).1,
        e.touchesImage = false := by
  obtain ⟨p, hp, hre⟩ := hcol
  have hfound : ∃ src ∈
      ((src_files.map (fun q => q.dropLast)).dedup).insertionSort pathLe,
      env.resolve options.output_dir = env.resolve src :=
    ⟨p.dropLast,
     (List.perm_insertionSort pathLe _).mem_iff.mpr
       (List.mem_dedup.mpr (List.mem_map_of_mem _ hp)),
     hre⟩
  obtain ⟨hev, msg, herr⟩ :=
    ensure_output_dir_error env options _ hover hfound
  unfold export_images
  rw [if_neg hne]
  dsimp only
  rw [herr, hev]
  refine ⟨⟨msg, rfl⟩, ?_⟩
  intro e he
  rw [List.mem_singleton.mp he]
  rfl

/-- C1 witness at a concrete input: one source file whose parent is the
configured output directory. -/
theorem export_images_guards_source_dirs_witness :
    ([["pics", "a.png"]] ≠ ([] : List FsPath) ∧
        demoCollidingOptions.allow_overwrite_source = false ∧
        ∃ p ∈ [["pics", "a.png"]],
          demoExportEnv.resolve demoCollidingOptions.output_dir =
            demoExportEnv.resolve p.dropLast) ∧
      ((∃ msg,
          (export_images demoExportEnv [["pics", "a.png"]]
              demoCollidingOptions).2 = Except.error msg) ∧
        ∀ e ∈ (export_images demoExportEnv [["pics", "a.png"]]
            demoCollidingOptions).1, e.touchesImage = false) :=
  ⟨⟨by decide, rfl, ⟨["pics", "a.png"], by decide, rfl⟩⟩,
   export_images_guards_source_dirs demoExportEnv [["pics", "a.png"]]
     demoCollidingOptions (by decide) rfl
     ⟨["pics", "a.png"], by decide, rfl⟩⟩
